import Mathlib

/-
Verification development for the A2C LunarLander experiment
(experiments/box2d/a2c_lunarlander.py).

The Python module is embedded shallowly:
  * gym space objects become the inductive type `GymSpace`; the
    `isinstance` checks of `Policy.__init__` become Boolean
    discriminators on that type.
  * the structural part of `Policy.__init__` (validation order, layer
    allocation, the optional SB3-style orthogonal initialization pass)
    is modelled by `policyInit`, which also returns the list of layer
    allocation events so that "fails before any layer is allocated"
    is expressible.
  * the numeric part of the policy (the two feed-forward branches and
    the torch Categorical distribution) is embedded over the reals:
    lists of reals stand for float tensors, and the global torch
    sampling generator becomes an explicit stream of uniform draws.
  * the straight-line body of `run` is modelled as the list of
    constructor calls it performs, each recorded with the exact
    arguments the source passes.
-/

/-- Gym space kinds distinguished by the isinstance checks of the source:
gym.spaces.Box, gym.spaces.Discrete, and two further space kinds
(MultiBinary and Tuple) standing for the unsupported ones. -/
inductive GymSpace where
  | box (shape : List Nat)
  | discrete (n : Nat)
  | multiBinary (n : Nat)
  | tupleSpace
deriving DecidableEq

/-- Embedding of isinstance(space, gym.spaces.Box). -/
def GymSpace.isBox : GymSpace → Bool
  | .box _ => true
  | _ => false

/-- Embedding of isinstance(space, gym.spaces.Discrete). -/
def GymSpace.isDiscrete : GymSpace → Bool
  | .discrete _ => true
  | _ => false

/-- Embedding of observation_space.shape[0] (only meaningful on Box). -/
def GymSpace.shape0 : GymSpace → Nat
  | .box shape => shape.headD 0
  | _ => 0

/-- Embedding of action_space.n (only meaningful on Discrete). -/
def GymSpace.nDiscrete : GymSpace → Nat
  | .discrete n => n
  | _ => 0

/-- Printable form of a space, standing for Python repr(space) as used by
str.format in the two error messages of Policy.__init__. -/
def GymSpace.reprS : GymSpace → String
  | .box shape => "Box" ++ toString shape
  | .discrete n => "Discrete(" ++ toString n ++ ")"
  | .multiBinary n => "MultiBinary(" ++ toString n ++ ")"
  | .tupleSpace => "Tuple"

/-- Initialization state of a weight tensor: torch default
(kaiming-uniform, as torch.nn.Linear leaves it) or overwritten by
nn.init.orthogonal_ with the recorded gain. -/
inductive WeightInit where
  | defaultInit
  | orthogonalInit (gain : ℚ)
deriving DecidableEq

/-- Initialization state of a bias tensor: torch default or filled with 0.0
by ActorCriticCnnPolicy.init_weights. -/
inductive BiasInit where
  | defaultB
  | zeroB
deriving DecidableEq

/-- Structural record of one torch.nn.Linear(in_features, out_features)
module together with the initialization state of its parameters. -/
structure LinearSpec where
  in_features : Nat
  out_features : Nat
  w_init : WeightInit
  b_init : BiasInit
deriving DecidableEq

/-- One element of a torch.nn.Sequential in this model: a Linear module or
a (parameterless) ReLU module. -/
inductive LayerSpec where
  | linear (l : LinearSpec)
  | reluL
deriving DecidableEq

/-- Embedding of SB3 ActorCriticCnnPolicy.init_weights with a fixed gain:
on Linear modules it orthogonally re-initializes the weight with that gain
and fills the bias with zero; other modules are untouched. -/
def init_weights (gain : ℚ) : LayerSpec → LayerSpec
  | .linear l => .linear { l with w_init := .orthogonalInit gain, b_init := .zeroB }
  | .reluL => .reluL

/-- The weight-initialization tag of a layer, when it is a Linear. -/
def LayerSpec.linearWInit : LayerSpec → Option WeightInit
  | .linear l => some l.w_init
  | .reluL => none

/-- The bias-initialization tag of a layer, when it is a Linear. -/
def LayerSpec.linearBInit : LayerSpec → Option BiasInit
  | .linear l => some l.b_init
  | .reluL => none

/-- Observable allocation events of Policy.__init__: each
torch.nn.Linear(inF, outF) construction allocates its parameter tensors. -/
inductive InitEvent where
  | allocLinear (inF outF : Nat)
deriving DecidableEq

/-- Allocation events produced by building a Sequential from the given
layer list (ReLU allocates no parameter tensor). -/
def allocEventsOf : List LayerSpec → List InitEvent
  | [] => []
  | .linear l :: rest => .allocLinear l.in_features l.out_features :: allocEventsOf rest
  | .reluL :: rest => allocEventsOf rest

/-- Structural result of a successful Policy.__init__ call. -/
structure PolicyLayout where
  observation_space : GymSpace
  action_space : GymSpace
  hidden_size : Nat
  ortho_init : Bool
  action_layers : List LayerSpec
  value_layers : List LayerSpec
deriving DecidableEq

/-- Structural embedding of Policy.__init__: first the two isinstance
validations (raising ValueError with the source's format strings — note
the second message formats observation_space), then allocation of the two
Sequential branches, then, when ortho_init is set, the module.apply pass
that re-initializes every Linear submodule of action_layers with gain 0.01
and of value_layers with gain 1.  The returned event list records the
layer allocations performed before the result was produced. -/
def policyInit (observation_space action_space : GymSpace)
    (hidden_size : Nat) (ortho : Bool) :
    List InitEvent × Except String PolicyLayout :=
  if observation_space.isBox = false then
    ([], .error ("Unsupported observation space " ++ observation_space.reprS))
  else if action_space.isDiscrete = false then
    ([], .error ("Unsupported action space " ++ observation_space.reprS))
  else
    let obsDim := observation_space.shape0
    let action_layers : List LayerSpec :=
      [.linear ⟨obsDim, hidden_size, .defaultInit, .defaultB⟩, .reluL,
       .linear ⟨hidden_size, hidden_size, .defaultInit, .defaultB⟩, .reluL,
       .linear ⟨hidden_size, action_space.nDiscrete, .defaultInit, .defaultB⟩]
    let value_layers : List LayerSpec :=
      [.linear ⟨obsDim, hidden_size, .defaultInit, .defaultB⟩, .reluL,
       .linear ⟨hidden_size, hidden_size, .defaultInit, .defaultB⟩, .reluL,
       .linear ⟨hidden_size, 1, .defaultInit, .defaultB⟩]
    let events := allocEventsOf action_layers ++ allocEventsOf value_layers
    let action_layers2 :=
      if ortho then action_layers.map (init_weights (1 / 100)) else action_layers
    let value_layers2 :=
      if ortho then value_layers.map (init_weights 1) else value_layers
    (events, .ok ⟨observation_space, action_space, hidden_size, ortho,
                  action_layers2, value_layers2⟩)

/-- Arguments of the run function, mirroring the argparse namespace fields
it reads (floats are embedded as rationals; seed is optional as in the
source, where the default is None). -/
structure RunArgs where
  n_envs : Nat
  seed : Option Int
  device : String
  hiddensize : Nat
  n_steps : Nat
  batch_size : Option Nat
  gae_lambda : ℚ
  lr : ℚ
  gamma : ℚ
  ent_coef : ℚ
  val_coef : ℚ
  rms_prop_eps : ℚ
  max_grad_norm : ℚ
  total_timesteps : Nat
  log_interval : Nat
  log_dir : Option String
  ortho_init : Bool

/-- Arguments passed by run to the GeneralBuffer constructor. -/
structure GeneralBufferArgs where
  buffer_size : Nat
  observation_space : GymSpace
  action_space : GymSpace
  device : String
  n_envs : Nat
deriving DecidableEq

/-- Arguments passed by run to the A2C constructor (the trainer). -/
structure A2CArgs where
  rollout_len : Nat
  ent_coef : ℚ
  vf_coef : ℚ
  gae_lambda : ℚ
  gamma : ℚ
  batch_size : Option Nat
  max_grad_norm : ℚ
  normalize_advantage : Bool
  device : String
deriving DecidableEq

/-- Constructor calls performed by the straight-line body of run, each
recorded with the exact arguments the source passes. -/
inductive RunEvent where
  | makeEnvE (n_envs : Nat) (seed : Int)
  | policyE (hiddensize : Nat) (lr rms_prop_eps : ℚ) (ortho : Bool)
  | bufferE (a : GeneralBufferArgs)
  | collectorE (device : String)
  | a2cE (a : A2CArgs)
  | learnE (total_timesteps : Nat)
deriving DecidableEq

/-- Embedding of numpy's np.random.randint(lo, hi): a uniform integer in
the half-open range lo..hi, driven here by an explicit draw from the
underlying uniform generator, reduced into the range by remainder. -/
def npRandint (lo hi : Nat) (draw : Nat) : Nat := lo + draw % (hi - lo)

/-- Embedding of run: resolves the seed (replacing None by
np.random.randint(0, 2**16)), then performs the constructor calls of the
source in order: make_env, Policy, GeneralBuffer (with buffer_size
n_steps + 1), OnPolicyCollector, A2C (with rollout_len n_steps and
normalize_advantage literally False), and finally model.learn.  The
observation and action spaces come from the vectorized environment and
are passed in as parameters. -/
def run (args : RunArgs) (obsSp actSp : GymSpace) (draw : Nat) : List RunEvent :=
  let seed : Int :=
    match args.seed with
    | some s => s
    | none => (npRandint 0 (2 ^ 16) draw : Nat)
  [RunEvent.makeEnvE args.n_envs seed,
   RunEvent.policyE args.hiddensize args.lr args.rms_prop_eps args.ortho_init,
   RunEvent.bufferE ⟨args.n_steps + 1, obsSp, actSp, args.device, args.n_envs⟩,
   RunEvent.collectorE args.device,
   RunEvent.a2cE ⟨args.n_steps, args.ent_coef, args.val_coef, args.gae_lambda,
                  args.gamma, args.batch_size, args.max_grad_norm, false,
                  args.device⟩,
   RunEvent.learnE args.total_timesteps]

/-- Projection selecting GeneralBuffer construction events. -/
def bufferArgsOf : RunEvent → Option GeneralBufferArgs
  | .bufferE a => some a
  | _ => none

/-- Projection selecting A2C construction events. -/
def a2cArgsOf : RunEvent → Option A2CArgs
  | .a2cE a => some a
  | _ => none

/-- Projection selecting the seed passed to make_env. -/
def envSeedOf : RunEvent → Option Int
  | .makeEnvE _ s => some s
  | _ => none

/-- A torch.nn.Linear module at runtime: weight rows (out by in) and bias,
with float entries embedded as reals. -/
structure Linear where
  weight : List (List ℝ)
  bias : List ℝ

/-- Dot product of two real vectors, the row computation of a Linear. -/
noncomputable def dot (xs ys : List ℝ) : ℝ := (List.zipWith (· * ·) xs ys).sum

/-- Application of a Linear module to one input vector: one output entry
per (weight row, bias entry) pair. -/
noncomputable def Linear.apply (l : Linear) (x : List ℝ) : List ℝ :=
  List.zipWith (fun row b => dot row x + b) l.weight l.bias

/-- Elementwise torch.nn.ReLU. -/
noncomputable def relu (x : List ℝ) : List ℝ := x.map (fun a => max a 0)

/-- A three-Linear Sequential with interleaved ReLUs, the shape of both
branches built in Policy.__init__. -/
noncomputable def mlp3 (t : Linear × Linear × Linear) (x : List ℝ) : List ℝ :=
  t.2.2.apply (relu (t.2.1.apply (relu (t.1.apply x))))

/-- Runtime parameters of the Policy: the action branch and the value
branch are two disjoint triples of Linear modules (plus parameterless
ReLUs), exactly the two Sequentials of the source. -/
structure Policy where
  action_layers : Linear × Linear × Linear
  value_layers : Linear × Linear × Linear

/-- Embedding of Policy._preprocess: tensor.float() is a dtype cast, the
identity on our real-valued vectors. -/
def Policy._preprocess (_ : Policy) (tensor : List ℝ) : List ℝ := tensor

/-- Embedding of Policy._forward on one observation row: the action
logits from action_layers and the value from value_layers, both on the
preprocessed input. -/
noncomputable def Policy._forward (p : Policy) (tensor : List ℝ) :
    List ℝ × List ℝ :=
  (mlp3 p.action_layers (p._preprocess tensor),
   mlp3 p.value_layers (p._preprocess tensor))

/-- The action-logit row of one observation. -/
noncomputable def Policy.actionLogits (p : Policy) (x : List ℝ) : List ℝ :=
  (p._forward x).1

/-- The value row of one observation (a length-one vector, since the last
value layer is Linear(hidden_size, 1)). -/
noncomputable def Policy.valueRow (p : Policy) (x : List ℝ) : List ℝ :=
  (p._forward x).2

/-- Softmax probabilities of a logit row, as torch.distributions.Categorical
computes probs from logits. -/
noncomputable def softmaxProbs (logits : List ℝ) : List ℝ :=
  logits.map (fun z => Real.exp z / (logits.map Real.exp).sum)

/-- Log of the sum of exponentials of a logit row (torch logsumexp, used
by Categorical to normalize logits). -/
noncomputable def logSumExp (logits : List ℝ) : ℝ :=
  Real.log (logits.map Real.exp).sum

/-- Embedding of Categorical(logits=l).log_prob(a): the normalized logit
at index a. -/
noncomputable def catLogProb (logits : List ℝ) (a : Nat) : ℝ :=
  logits.getD a 0 - logSumExp logits

/-- Embedding of Categorical(logits=l).entropy(): the negated sum over the
support of normalized-logit times probability, as in the torch source. -/
noncomputable def catEntropy (logits : List ℝ) : ℝ :=
  -(logits.map (fun z =>
      (z - logSumExp logits) * (Real.exp z / (logits.map Real.exp).sum))).sum

/-- Modelled from the spec: the Shannon entropy of a probability row,
the quantity section 4.1 says evaluate returns; compared below against
the torch entropy computation embedded in catEntropy. -/
noncomputable def specShannonEntropy (ps : List ℝ) : ℝ :=
  -(ps.map (fun q => q * Real.log q)).sum

/-- Cumulative softmax probabilities of a logit row. -/
noncomputable def cumulativeProbs (logits : List ℝ) : List ℝ :=
  (List.range logits.length).map (fun i => ((softmaxProbs logits).take (i + 1)).sum)

/-- Embedding of Categorical(logits=l).sample() for one row and one
uniform draw u: inverse-transform sampling, the first index whose
cumulative probability exceeds u. -/
noncomputable def catSample (logits : List ℝ) (u : ℝ) : Nat :=
  (cumulativeProbs logits).findIdx (fun c => decide (u < c))

/-- One step of a linear congruential generator on 64-bit state,
standing for the global torch generator's state transition. -/
def lcgNext (s : Nat) : Nat :=
  (6364136223846793005 * s + 1442695040888963407) % 2 ^ 64

/-- The generator state after n + 1 steps from the given seed. -/
def lcgState (seed : Nat) : Nat → Nat
  | 0 => lcgNext seed
  | n + 1 => lcgNext (lcgState seed n)

/-- The stream of uniform draws in the unit interval produced by the
global generator once seeded: a deterministic function of the seed,
which is what fixing the torch seed amounts to. -/
noncomputable def uniformStream (seed : Nat) (n : Nat) : ℝ :=
  (lcgState seed n % 2 ^ 32 : Nat) / (2 ^ 32 : ℝ)

/-- Embedding of Policy.forward on an observation batch, with the global
sampling generator made explicit as the stream g of uniform draws: compute
the logit and value rows via _forward, build the Categorical distribution
per row, sample one action per row, and take the log-probability of each
sampled action under the same distribution. -/
noncomputable def Policy.forwardR (p : Policy) (tensor : List (List ℝ))
    (g : Nat → ℝ) : List Nat × List (List ℝ) × List ℝ :=
  let act_logit := tensor.map p.actionLogits
  let values := tensor.map p.valueRow
  let action := (List.range tensor.length).map
    (fun i => catSample (act_logit.getD i []) (g i))
  let log_prob := (List.range tensor.length).map
    (fun i => catLogProb (act_logit.getD i []) (action.getD i 0))
  (action, values, log_prob)

/-- Embedding of Policy.evaluate_actions: recompute logits and values
from the observations, then the log-probability of the externally
supplied actions and the entropy of the recomputed distribution; no
sampling draw is consumed. -/
noncomputable def Policy.evaluate_actions (p : Policy)
    (observation : List (List ℝ)) (action : List Nat) :
    List (List ℝ) × List ℝ × List ℝ :=
  let act_logit := observation.map p.actionLogits
  let values := observation.map p.valueRow
  let log_prob := (List.range observation.length).map
    (fun i => catLogProb (act_logit.getD i []) (action.getD i 0))
  let entropy := act_logit.map catEntropy
  (values, log_prob, entropy)

/-- A one-dimensional identity-like Linear used as a concrete witness
parameter value. -/
noncomputable def unitLinear : Linear := ⟨[[1]], [0]⟩

/-- A concrete Policy instance (all six Linear modules one-dimensional)
used by the witnesses. -/
noncomputable def pW : Policy :=
  ⟨(unitLinear, unitLinear, unitLinear), (unitLinear, unitLinear, unitLinear)⟩

/-- A concrete draw stream used by the witnesses. -/
noncomputable def gW : Nat → ℝ := fun _ => 0

/-- A concrete argument record with an explicit seed, used by witnesses. -/
def argsSome : RunArgs :=
  { n_envs := 8, seed := some 5, device := "cpu", hiddensize := 128,
    n_steps := 5, batch_size := none, gae_lambda := 1, lr := 83 / 100000,
    gamma := 995 / 1000, ent_coef := 5 / 100, val_coef := 25 / 100,
    rms_prop_eps := 1 / 100000, max_grad_norm := 1 / 2,
    total_timesteps := 400000, log_interval := 500, log_dir := none,
    ortho_init := false }

/-- A concrete argument record with seed None, used by witnesses. -/
def argsNone : RunArgs :=
  { argsSome with seed := none }

/-- Helper: the sum of exponentials of a nonempty list is positive. -/
theorem sum_map_exp_pos (l : List ℝ) (h : l ≠ []) : 0 < (l.map Real.exp).sum := by
  cases l with
  | nil => exact absurd rfl h
  | cons a t =>
    have h2 : 0 ≤ (t.map Real.exp).sum := by
      refine List.sum_nonneg ?_
      intro x hx
      obtain ⟨y, _, rfl⟩ := List.mem_map.1 hx
      exact (Real.exp_pos y).le
    have h1 : (0 : ℝ) < Real.exp a := Real.exp_pos a
    simp only [List.map_cons, List.sum_cons]
    linarith

/-- Helper: summing a list mapped through division by a constant. -/
theorem sum_map_div (l : List ℝ) (f : ℝ → ℝ) (c : ℝ) :
    (l.map (fun z => f z / c)).sum = (l.map f).sum / c := by
  induction l with
  | nil => simp
  | cons a t ih => simp [ih, add_div]

/-- Helper: the softmax probabilities of a nonempty logit row sum to one. -/
theorem softmaxProbs_sum (l : List ℝ) (h : l ≠ []) : (softmaxProbs l).sum = 1 := by
  unfold softmaxProbs
  rw [sum_map_div l Real.exp ((l.map Real.exp).sum)]
  exact div_self (ne_of_gt (sum_map_exp_pos l h))

/-- Helper: softmax preserves row length. -/
theorem length_softmaxProbs (l : List ℝ) : (softmaxProbs l).length = l.length := by
  simp [softmaxProbs]

/-- Helper: the log of a softmax probability is the normalized logit. -/
theorem log_softmax (l : List ℝ) (hne : l ≠ []) (z : ℝ) :
    Real.log (Real.exp z / (l.map Real.exp).sum) = z - logSumExp l := by
  rw [Real.log_div (Real.exp_ne_zero z) (ne_of_gt (sum_map_exp_pos l hne)),
    Real.log_exp, logSumExp]

/-- Helper: the torch Categorical entropy of a logit row equals the
Shannon entropy of its softmax probability row. -/
theorem catEntropy_eq_shannon (l : List ℝ) :
    catEntropy l = specShannonEntropy (softmaxProbs l) := by
  unfold catEntropy specShannonEntropy softmaxProbs
  rw [List.map_map]
  congr 1
  congr 1
  apply List.map_congr_left
  intro z hz
  have hne : l ≠ [] := List.ne_nil_of_mem hz
  simp only [Function.comp]
  rw [log_softmax l hne z]
  ring

/-- Helper: getD of a mapped list below the length. -/
theorem getD_map_lt {α β : Type} (l : List α) (f : α → β) (i : Nat)
    (h : i < l.length) (d : β) :
    (l.map f).getD i d = f (l.get ⟨i, h⟩) := by
  simp [List.getD_eq_getElem?_getD, List.getElem?_map, List.getElem?_eq_getElem h]

/-- Helper: getD below the length is get. -/
theorem getD_lt {α : Type} (l : List α) (i : Nat) (h : i < l.length) (d : α) :
    l.getD i d = l.get ⟨i, h⟩ := by
  simp [List.getD_eq_getElem?_getD, List.getElem?_eq_getElem h]

/-- Helper: getD of a list built by mapping over a range. -/
theorem getD_range_map {β : Type} (f : Nat → β) (n i : Nat) (h : i < n) (d : β) :
    ((List.range n).map f).getD i d = f i := by
  have h2 : i < (List.range n).length := by simpa using h
  rw [getD_map_lt (List.range n) f i h2 d]
  congr 1
  simp

/-- Helper: inverse-transform sampling from a nonempty logit row with a
draw below one lands inside the support. -/
theorem catSample_lt_length (l : List ℝ) (u : ℝ) (hne : l ≠ []) (h1 : u < 1) :
    catSample l u < l.length := by
  have hpos : 0 < l.length := List.length_pos.2 hne
  have hlen : (cumulativeProbs l).length = l.length := by simp [cumulativeProbs]
  have hmem : (1 : ℝ) ∈ cumulativeProbs l := by
    have htake : ((softmaxProbs l).take (l.length - 1 + 1)).sum = 1 := by
      rw [Nat.sub_add_cancel hpos, ← length_softmaxProbs l, List.take_length]
      exact softmaxProbs_sum l hne
    unfold cumulativeProbs
    refine List.mem_map.2 ⟨l.length - 1, ?_, htake⟩
    exact List.mem_range.2 (by omega)
  have hex : ∃ c ∈ cumulativeProbs l, (fun c => decide (u < c)) c = true :=
    ⟨1, hmem, by simp [h1]⟩
  have := List.findIdx_lt_length_of_exists hex
  unfold catSample
  omega

/-- Helper: the Categorical log-probability of an in-support index is the
log of that index's softmax probability. -/
theorem catLogProb_eq_log_prob (l : List ℝ) (a : Nat) (ha : a < l.length) :
    catLogProb l a = Real.log ((softmaxProbs l).getD a 0) := by
  have hne : l ≠ [] := by
    intro h
    subst h
    simp at ha
  have hsm : (softmaxProbs l).getD a 0 =
      Real.exp (l.getD a 0) / (l.map Real.exp).sum := by
    unfold softmaxProbs
    rw [getD_map_lt l _ a ha 0, getD_lt l a ha 0]
  rw [hsm, log_softmax l hne (l.getD a 0)]
  rfl

/-- C1: constructing the Policy with an observation space that is not a
Box, or an action space that is not Discrete, fails with the
unsupported-space error and produces no layer allocation event (the
failure happens before any network layer tensor is allocated), while
constructing with a Box observation space and a Discrete action space
does not raise and performs its layer allocations. -/
theorem policy_space_validation (obs act : GymSpace) (h : Nat) (ortho : Bool) :
    (obs.isBox = false →
      policyInit obs act h ortho =
        ([], Except.error ("Unsupported observation space " ++ obs.reprS))) ∧
    (obs.isBox = true → act.isDiscrete = false →
      policyInit obs act h ortho =
        ([], Except.error ("Unsupported action space " ++ obs.reprS))) ∧
    (obs.isBox = true → act.isDiscrete = true →
      (∃ pl, (policyInit obs act h ortho).2 = Except.ok pl) ∧
        (policyInit obs act h ortho).1 ≠ []) := by
  refine ⟨?_, ?_, ?_⟩
  · intro h1
    simp [policyInit, h1]
  · intro h1 h2
    simp [policyInit, h1, h2]
  · intro h1 h2
    constructor
    · simp only [policyInit, h1, h2, Bool.true_eq_false, if_false]
      exact ⟨_, rfl⟩
    · simp [policyInit, h1, h2, allocEventsOf]

/-- C1 witness: at concrete spaces, construction on a Discrete
observation space fails with the empty allocation trace, and
construction on Box observations with Discrete actions succeeds. -/
theorem policy_space_validation_witness :
    policyInit (GymSpace.discrete 3) (GymSpace.discrete 2) 4 false =
      ([], Except.error ("Unsupported observation space " ++
        (GymSpace.discrete 3).reprS)) ∧
    (∃ pl, (policyInit (GymSpace.box [8]) (GymSpace.discrete 4) 128 true).2 =
      Except.ok pl) := by
  constructor
  · exact (policy_space_validation (GymSpace.discrete 3)
      (GymSpace.discrete 2) 4 false).1 rfl
  · exact ((policy_space_validation (GymSpace.box [8])
      (GymSpace.discrete 4) 128 true).2.2 rfl rfl).1

/-- C9: when construction fails because the action space is not Discrete
while the observation space is a Box, the raised error's message embeds
the printed observation space (the source formats observation_space into
the action-space message), and it differs from the message that would
report the action space whenever the two spaces print differently. -/
theorem action_space_error_reports_obs (obs act : GymSpace) (h : Nat)
    (ortho : Bool) (hobs : obs.isBox = true) (hact : act.isDiscrete = false) :
    (policyInit obs act h ortho).2 =
      Except.error ("Unsupported action space " ++ obs.reprS) ∧
    (obs.reprS ≠ act.reprS →
      (policyInit obs act h ortho).2 ≠
        Except.error ("Unsupported action space " ++ act.reprS)) := by
  have hmain : (policyInit obs act h ortho).2 =
      Except.error ("Unsupported action space " ++ obs.reprS) := by
    simp [policyInit, hobs, hact]
  refine ⟨hmain, ?_⟩
  intro hne heq
  rw [hmain] at heq
  have hstr : "Unsupported action space " ++ obs.reprS =
      "Unsupported action space " ++ act.reprS := by
    injection heq
  have := congrArg String.data hstr
  simp [String.data_append] at this
  exact hne (String.ext this)

/-- C9 witness: with Box [8] observations and a Box [2] action space, the
error message is the one formatting the observation space, and not the
one formatting the action space. -/
theorem action_space_error_reports_obs_witness :
    (policyInit (GymSpace.box [8]) (GymSpace.box [2]) 128 true).2 =
      Except.error ("Unsupported action space " ++ (GymSpace.box [8]).reprS) ∧
    (policyInit (GymSpace.box [8]) (GymSpace.box [2]) 128 true).2 ≠
      Except.error ("Unsupported action space " ++ (GymSpace.box [2]).reprS) := by
  have h := action_space_error_reports_obs (GymSpace.box [8])
    (GymSpace.box [2]) 128 true rfl rfl
  exact ⟨h.1, h.2 (by decide)⟩

/-- C4 counterexample: constructing with ortho_init enabled on Box [8]
observations and Discrete 4 actions, the first — hidden, hence non-final —
Linear module of the action branch has been orthogonally re-initialized
with gain 0.01 instead of keeping the default initialization the claim
asserts for all non-final layers. -/
theorem ortho_init_counterexample :
    Except.map (fun pl => (pl.action_layers.headD LayerSpec.reluL).linearWInit)
      (policyInit (GymSpace.box [8]) (GymSpace.discrete 4) 128 true).2 =
      Except.ok (some (WeightInit.orthogonalInit (1 / 100))) ∧
    some (WeightInit.orthogonalInit (1 / 100)) ≠ some WeightInit.defaultInit := by
  constructor
  · rfl
  · decide

/-- C4 amended: when ortho_init is enabled, EVERY Linear module of the
actor branch is orthogonally initialized with gain 0.01 and zero bias and
EVERY Linear module of the critic branch with gain 1 and zero bias (the
source applies the SB3 init_weights pass to each whole Sequential, not
only to its final layer); when disabled, every layer keeps the default
initialization. -/
theorem ortho_init_layers (shape : List Nat) (n h : Nat) :
    (policyInit (GymSpace.box shape) (GymSpace.discrete n) h true).2 =
      Except.ok ⟨GymSpace.box shape, GymSpace.discrete n, h, true,
        [.linear ⟨shape.headD 0, h, .orthogonalInit (1 / 100), .zeroB⟩, .reluL,
         .linear ⟨h, h, .orthogonalInit (1 / 100), .zeroB⟩, .reluL,
         .linear ⟨h, n, .orthogonalInit (1 / 100), .zeroB⟩],
        [.linear ⟨shape.headD 0, h, .orthogonalInit 1, .zeroB⟩, .reluL,
         .linear ⟨h, h, .orthogonalInit 1, .zeroB⟩, .reluL,
         .linear ⟨h, 1, .orthogonalInit 1, .zeroB⟩]⟩ ∧
    (policyInit (GymSpace.box shape) (GymSpace.discrete n) h false).2 =
      Except.ok ⟨GymSpace.box shape, GymSpace.discrete n, h, false,
        [.linear ⟨shape.headD 0, h, .defaultInit, .defaultB⟩, .reluL,
         .linear ⟨h, h, .defaultInit, .defaultB⟩, .reluL,
         .linear ⟨h, n, .defaultInit, .defaultB⟩],
        [.linear ⟨shape.headD 0, h, .defaultInit, .defaultB⟩, .reluL,
         .linear ⟨h, h, .defaultInit, .defaultB⟩, .reluL,
         .linear ⟨h, 1, .defaultInit, .defaultB⟩]⟩ := by
  constructor
  · rfl
  · rfl

/-- C5: run allocates the rollout buffer exactly once, with capacity
n_steps + 1 timesteps for n_envs environments, configures the trainer with
rollout length n_steps, and hence the buffer holds one more timestep than
the rollout length. -/
theorem buffer_capacity (args : RunArgs) (obsSp actSp : GymSpace) (draw : Nat) :
    (run args obsSp actSp draw).filterMap bufferArgsOf =
      [⟨args.n_steps + 1, obsSp, actSp, args.device, args.n_envs⟩] ∧
    ((run args obsSp actSp draw).filterMap a2cArgsOf).map
      (fun t => t.rollout_len) = [args.n_steps] ∧
    ((run args obsSp actSp draw).filterMap bufferArgsOf).map
        (fun b => b.buffer_size) =
      ((run args obsSp actSp draw).filterMap a2cArgsOf).map
        (fun t => t.rollout_len + 1) := by
  refine ⟨?_, ?_, ?_⟩ <;> simp [run, bufferArgsOf, a2cArgsOf]

/-- C7: the A2C trainer constructed by run receives
normalize_advantage = false, whatever the command-line arguments are. -/
theorem normalize_advantage_disabled (args : RunArgs) (obsSp actSp : GymSpace)
    (draw : Nat) :
    ((run args obsSp actSp draw).filterMap a2cArgsOf).map
      (fun t => t.normalize_advantage) = [false] := by
  simp [run, a2cArgsOf]

/-- C10: run passes a supplied seed unchanged to make_env; when the seed
is None it passes np.random.randint(0, 2^16), an integer below 2^16, and
every value of that range is attainable by some underlying draw. -/
theorem seed_resolution (args : RunArgs) (obsSp actSp : GymSpace) (draw : Nat) :
    (∀ s : Int, args.seed = some s →
      (run args obsSp actSp draw).filterMap envSeedOf = [s]) ∧
    (args.seed = none →
      (run args obsSp actSp draw).filterMap envSeedOf =
        [((npRandint 0 (2 ^ 16) draw : Nat) : Int)] ∧
      npRandint 0 (2 ^ 16) draw < 2 ^ 16) ∧
    (∀ t : Nat, t < 2 ^ 16 → ∃ d : Nat, npRandint 0 (2 ^ 16) d = t) := by
  refine ⟨?_, ?_, ?_⟩
  · intro s hs
    simp [run, envSeedOf, hs]
  · intro hn
    constructor
    · simp [run, envSeedOf, hn]
    · simp only [npRandint]
      omega
  · intro t ht
    refine ⟨t, ?_⟩
    simp only [npRandint]
    omega

/-- C10 witness: a concrete supplied seed is passed through unchanged; a
concrete None-seed run passes the drawn value 70000 mod 2^16 = 4464, which
is below 2^16; and the range value 123 is attainable. -/
theorem seed_resolution_witness :
    (run argsSome (GymSpace.box [8]) (GymSpace.discrete 4) 3).filterMap
      envSeedOf = [5] ∧
    (run argsNone (GymSpace.box [8]) (GymSpace.discrete 4) 70000).filterMap
      envSeedOf = [(4464 : Int)] ∧
    npRandint 0 (2 ^ 16) 70000 < 2 ^ 16 ∧
    (∃ d : Nat, npRandint 0 (2 ^ 16) d = 123) := by
  have h1 := (seed_resolution argsSome (GymSpace.box [8])
    (GymSpace.discrete 4) 3).1 5 rfl
  have h2 := (seed_resolution argsNone (GymSpace.box [8])
    (GymSpace.discrete 4) 70000).2.1 rfl
  have h3 := (seed_resolution argsNone (GymSpace.box [8])
    (GymSpace.discrete 4) 70000).2.2 123 (by norm_num)
  refine ⟨h1, ?_, h2.2, h3⟩
  rw [h2.1]
  norm_num [npRandint]

/-- C8: the value batch returned by evaluate_actions does not depend on
the supplied action batch, and equals the value batch returned by forward
on the same observation batch. -/
theorem evaluate_value_independent (p : Policy) (obs : List (List ℝ))
    (a1 a2 : List Nat) (g : Nat → ℝ) :
    (p.evaluate_actions obs a1).1 = (p.evaluate_actions obs a2).1 ∧
    (p.evaluate_actions obs a1).1 = (p.forwardR obs g).2.1 :=
  ⟨rfl, rfl⟩

/-- C6: with the sampling generator made explicit as the deterministic
stream derived from the seed, two applications of forward to the same
observation batch with the same parameters and the same seed produce
identical action, value and log-probability batches. -/
theorem forward_deterministic (p : Policy) (obs : List (List ℝ)) (seed : Nat)
    (g1 g2 : Nat → ℝ) (h1 : g1 = uniformStream seed)
    (h2 : g2 = uniformStream seed) :
    p.forwardR obs g1 = p.forwardR obs g2 := by
  rw [h1, h2]

/-- C6 witness: the determinism theorem applied at a concrete policy,
observation batch and seed. -/
theorem forward_deterministic_witness :
    pW.forwardR [[1]] (uniformStream 0) = pW.forwardR [[1]] (uniformStream 0) :=
  forward_deterministic pW [[1]] 0 (uniformStream 0) (uniformStream 0) rfl rfl

/-- C3: evaluate_actions recomputes the value batch from the observations
alone, returns per row the log-probability of the externally supplied
action under the recomputed distribution (so when the supplied actions
are exactly the batch forward sampled, the log-probabilities coincide
with forward's — no resampling occurs), and returns per row the Shannon
entropy of the recomputed distribution. -/
theorem evaluate_contract (p : Policy) (obs : List (List ℝ)) (a : List Nat)
    (g : Nat → ℝ) :
    (p.evaluate_actions obs a).1 = obs.map p.valueRow ∧
    (∀ i : Fin obs.length,
      (p.evaluate_actions obs a).2.1.getD i 0 =
        catLogProb (p.actionLogits (obs.get i)) (a.getD i 0)) ∧
    (p.evaluate_actions obs a).2.2 =
      obs.map (fun x => specShannonEntropy (softmaxProbs (p.actionLogits x))) ∧
    (a = (p.forwardR obs g).1 →
      (p.evaluate_actions obs a).2.1 = (p.forwardR obs g).2.2) := by
  refine ⟨rfl, ?_, ?_, ?_⟩
  · intro i
    have e1 : (p.evaluate_actions obs a).2.1 = (List.range obs.length).map
        (fun i => catLogProb ((obs.map p.actionLogits).getD i []) (a.getD i 0)) :=
      rfl
    rw [e1, getD_range_map _ obs.length i i.isLt 0,
      getD_map_lt obs p.actionLogits i i.isLt []]
  · have e2 : (p.evaluate_actions obs a).2.2 =
        (obs.map p.actionLogits).map catEntropy := rfl
    rw [e2, List.map_map]
    apply List.map_congr_left
    intro x _
    exact catEntropy_eq_shannon (p.actionLogits x)
  · intro h
    subst h
    rfl

/-- C3 witness: evaluating at the concrete policy and observation batch,
with the supplied actions equal to the batch forward sampled, the
log-probabilities returned by evaluate_actions equal forward's. -/
theorem evaluate_contract_witness :
    (pW.evaluate_actions [[1]] ((pW.forwardR [[1]] gW).1)).2.1 =
      (pW.forwardR [[1]] gW).2.2 :=
  (evaluate_contract pW [[1]] ((pW.forwardR [[1]] gW).1) gW).2.2.2 rfl

/-- C2: forward computes per row the action logits and the value through
the two branches, whose outputs depend only on the corresponding branch's
own parameters (the branches share none), builds the categorical
distribution from the logits, samples exactly one action per environment
row using that row's uniform draw — the sampled action lying in the
distribution's support whenever the logit row is nonempty and the draw is
in the unit interval — and returns the sampled actions, the value rows,
and the log-probability of each sampled action under the sampling-time
distribution (the log of that action's softmax probability). -/
theorem forward_contract (p q : Policy) (obs : List (List ℝ)) (g : Nat → ℝ)
    (hrow : ∀ i : Fin obs.length, p.actionLogits (obs.get i) ≠ [])
    (hg : ∀ i : Nat, 0 ≤ g i ∧ g i < 1) :
    ((p.forwardR obs g).1.length = obs.length ∧
     (p.forwardR obs g).2.1.length = obs.length ∧
     (p.forwardR obs g).2.2.length = obs.length) ∧
    (∀ i : Fin obs.length,
      (p.forwardR obs g).1.getD i 0 =
        catSample (p.actionLogits (obs.get i)) (g i) ∧
      (p.forwardR obs g).2.1.getD i [] = p.valueRow (obs.get i) ∧
      (p.forwardR obs g).2.2.getD i 0 =
        catLogProb (p.actionLogits (obs.get i)) ((p.forwardR obs g).1.getD i 0) ∧
      (p.forwardR obs g).1.getD i 0 < (p.actionLogits (obs.get i)).length ∧
      (p.forwardR obs g).2.2.getD i 0 =
        Real.log ((softmaxProbs (p.actionLogits (obs.get i))).getD
          ((p.forwardR obs g).1.getD i 0) 0)) ∧
    (p.action_layers = q.action_layers →
      (p.forwardR obs g).1 = (q.forwardR obs g).1 ∧
      (p.forwardR obs g).2.2 = (q.forwardR obs g).2.2) ∧
    (p.value_layers = q.value_layers →
      (p.forwardR obs g).2.1 = (q.forwardR obs g).2.1) := by
  have eAct : (p.forwardR obs g).1 = (List.range obs.length).map
      (fun i => catSample ((obs.map p.actionLogits).getD i []) (g i)) := rfl
  have eVal : (p.forwardR obs g).2.1 = obs.map p.valueRow := rfl
  have eLog : (p.forwardR obs g).2.2 = (List.range obs.length).map
      (fun i => catLogProb ((obs.map p.actionLogits).getD i [])
        (((List.range obs.length).map
          (fun j => catSample ((obs.map p.actionLogits).getD j []) (g j))).getD i 0)) :=
    rfl
  refine ⟨⟨?_, ?_, ?_⟩, ?_, ?_, ?_⟩
  · rw [eAct]
    simp
  · rw [eVal]
    simp
  · rw [eLog]
    simp
  · intro i
    have hact : (p.forwardR obs g).1.getD i 0 =
        catSample (p.actionLogits (obs.get i)) (g i) := by
      rw [eAct, getD_range_map _ obs.length i i.isLt 0,
        getD_map_lt obs p.actionLogits i i.isLt []]
    have hlogit := getD_map_lt obs p.actionLogits i i.isLt []
    have hlp : (p.forwardR obs g).2.2.getD i 0 =
        catLogProb (p.actionLogits (obs.get i)) ((p.forwardR obs g).1.getD i 0) := by
      rw [eLog, getD_range_map _ obs.length i i.isLt 0, hlogit, eAct]
    have hsupport : (p.forwardR obs g).1.getD i 0 <
        (p.actionLogits (obs.get i)).length := by
      rw [hact]
      exact catSample_lt_length _ (g i) (hrow i) (hg i).2
    refine ⟨hact, ?_, hlp, hsupport, ?_⟩
    · rw [eVal, getD_map_lt obs p.valueRow i i.isLt []]
    · rw [hlp]
      exact catLogProb_eq_log_prob _ _ hsupport
  · intro h
    have hAL : p.actionLogits = q.actionLogits := by
      funext x
      simp [Policy.actionLogits, Policy._forward, Policy._preprocess, h]
    constructor
    · rw [eAct]
      simp [Policy.forwardR, hAL]
    · rw [eLog]
      simp [Policy.forwardR, hAL]
  · intro h
    have hVR : p.valueRow = q.valueRow := by
      funext x
      simp [Policy.valueRow, Policy._forward, Policy._preprocess, h]
    rw [eVal]
    simp [Policy.forwardR, hVR]

/-- C2 witness: the forward contract applied at the concrete
one-dimensional policy, a single observation row, and the zero draw
stream: the action batch has one entry and the sampled action lies in the
support of the single-row distribution. -/
theorem forward_contract_witness :
    (pW.forwardR [[1]] gW).1.length = 1 ∧
    (pW.forwardR [[1]] gW).1.getD 0 0 < (pW.actionLogits [1]).length := by
  have hrow : ∀ i : Fin ([[(1 : ℝ)]] : List (List ℝ)).length,
      pW.actionLogits (([[(1 : ℝ)]] : List (List ℝ)).get i) ≠ [] := by
    intro i
    fin_cases i
    show pW.actionLogits [1] ≠ []
    simp [pW, unitLinear, Policy.actionLogits, Policy._forward,
      Policy._preprocess, mlp3, Linear.apply, relu, dot]
  have hg : ∀ i : Nat, 0 ≤ gW i ∧ gW i < 1 := by
    intro i
    simp [gW]
  have h := forward_contract pW pW [[1]] gW hrow hg
  have hi := h.2.1 ⟨0, by norm_num⟩
  exact ⟨h.1.1, hi.2.2.2.1⟩
